import Mathlib

/-!
Shallow embedding of the ZAIVA Gemini Live session client
(`src/src/services/geminiLive.ts`, class `GeminiLiveService`).

Sample values are modelled as exact rationals (`ℚ`); machine int16 values as
`ℤ` with the explicit JS `ToInt16` wrap; fallible JS operations (`atob`,
`JSON.parse`, `new Int16Array` on an odd-length buffer, `ws.send` guards)
return `Except`/`Option`.  The `try`/`catch` blocks of the source are modelled
by totality: a caught error leaves the state as it was at the failure point.
-/

namespace ZaivaGeminiLive

/-! ## JS numeric primitives used by the audio codec -/

/-- Clamp of one float sample, per `Math.max(-1, Math.min(1, channelData[i]))`
(`convertAudioToPCM`, line 301). -/
def clampSample (v : ℚ) : ℚ := max (-1) (min 1 v)

/-- Truncation toward zero: the ToIntegerOrInfinity step JS performs when a
double is stored into an `Int16Array` slot. -/
def truncToZero (q : ℚ) : ℤ := if 0 ≤ q then ⌊q⌋ else ⌈q⌉

/-- Wrap per JS ToInt16: reduce mod 2^16 into [0, 2^16), then map the upper
half [2^15, 2^16) down by 2^16. -/
def toInt16 (n : ℤ) : ℤ :=
  let r := n % 65536
  if r < 32768 then r else r - 65536

/-- One outbound PCM sample: `pcmData[i] = Math.max(-1, Math.min(1, v)) * 32767`
stored into an `Int16Array` (`convertAudioToPCM`, lines 300-303). -/
def encodeSample (v : ℚ) : ℤ := toInt16 (truncToZero (clampSample v * 32767))

/-- The int16 conversion loop of `convertAudioToPCM` applied to a channel-data
array (lines 296-303). -/
def pcm16 (channelData : List ℚ) : List ℤ := channelData.map encodeSample

/-! ## Base64 (`btoa` / `atob`) -/

/-- The base64 alphabet. -/
def b64Alphabet : List Char :=
  "ABCDEFGHIJKLMNOPQRSTUVWXYZabcdefghijklmnopqrstuvwxyz0123456789+/".toList

/-- Character of one 6-bit group. -/
def encB64 (n : ℕ) : Char := b64Alphabet.getD n 'A'

/-- Reverse lookup of a base64 character. -/
def decB64 (c : Char) : Option ℕ := b64Alphabet.findIdx? (· = c)

/-- Base64 encoding as performed by `btoa` on a byte string
(`sendAudioMessage`, line 249): three bytes per four characters, `=` padding. -/
def b64encode : List ℕ → List Char
  | [] => []
  | [b0] => [encB64 (b0 / 4), encB64 (b0 % 4 * 16), '=', '=']
  | [b0, b1] => [encB64 (b0 / 4), encB64 (b0 % 4 * 16 + b1 / 16), encB64 (b1 % 16 * 4), '=']
  | b0 :: b1 :: b2 :: rest =>
      encB64 (b0 / 4) :: encB64 (b0 % 4 * 16 + b1 / 16) :: encB64 (b1 % 16 * 4 + b2 / 64) ::
        encB64 (b2 % 64) :: b64encode rest

/-- Base64 decoding as performed by `atob` (`handleAudioResponse`, line 161),
modelled on strict four-character groups with `=` padding; a malformed input
raises `InvalidCharacterError`, modelled as `Except.error`. -/
def b64decode : List Char → Except String (List ℕ)
  | [] => .ok []
  | c0 :: c1 :: c2 :: c3 :: rest =>
      match decB64 c0, decB64 c1 with
      | some v0, some v1 =>
          if c2 = '=' then
            if c3 = '=' ∧ rest = [] then .ok [v0 * 4 + v1 / 16]
            else .error "InvalidCharacterError"
          else
            match decB64 c2 with
            | some v2 =>
                if c3 = '=' then
                  if rest = [] then .ok [v0 * 4 + v1 / 16, v1 % 16 * 16 + v2 / 4]
                  else .error "InvalidCharacterError"
                else
                  match decB64 c3 with
                  | some v3 =>
                      match b64decode rest with
                      | .ok bs =>
                          .ok ((v0 * 4 + v1 / 16) :: (v1 % 16 * 16 + v2 / 4) ::
                               (v2 % 4 * 64 + v3) :: bs)
                      | .error e => .error e
                  | none => .error "InvalidCharacterError"
            | none => .error "InvalidCharacterError"
      | _, _ => .error "InvalidCharacterError"
  | _ => .error "InvalidCharacterError"

/-! ## Byte-level int16 layout -/

/-- Little-endian byte pair of one int16 sample: the layout of the
`Int16Array` backing buffer sent on the wire. -/
def i16ToBytesLE (n : ℤ) : List ℕ := [(n % 65536).toNat % 256, (n % 65536).toNat / 256]

/-- Reinterpret a byte buffer as int16 little-endian samples: the element
reads of `new Int16Array(pcmData)` (`pcmToAudioBuffer`, line 184). -/
def bytesToI16s : List ℕ → List ℤ
  | lo :: hi :: rest =>
      (let u := lo + 256 * hi
       if u < 32768 then (u : ℤ) else (u : ℤ) - 65536) :: bytesToI16s rest
  | _ => []

/-- Model of `pcmToAudioBuffer` (lines 181-194): requires an audio context,
requires an even byte length (`new Int16Array` raises `RangeError` on an
odd-length buffer), and converts each int16 sample to float by dividing by
32768.0. -/
def pcmToAudioBuffer (audioContext : Option ℕ) (pcmData : List ℕ) :
    Except String (List ℚ) :=
  match audioContext with
  | none => .error "Audio context not initialized"
  | some _ =>
      if pcmData.length % 2 = 0 then
        .ok ((bytesToI16s pcmData).map (fun n : ℤ => (n : ℚ) / 32768))
      else .error "RangeError"

/-- The spec's `encodeOutbound` on already-16 kHz-mono channel data (so no
resampling occurs): the int16 loop of `convertAudioToPCM` followed by
`btoa(String.fromCharCode(...new Uint8Array(buffer)))`. -/
def encodeOutbound (x : List ℚ) : List Char := b64encode ((pcm16 x).flatMap i16ToBytesLE)

/-- The spec's `decodeInbound`: `atob`, reinterpret as int16 little-endian,
divide each sample by 32768.0, at the fixed 24 kHz inbound rate
(`handleAudioResponse` lines 160-170 plus `pcmToAudioBuffer`). -/
def decodeInbound (wireFrame : List Char) : Except String (List ℚ) :=
  match b64decode wireFrame with
  | .error e => .error e
  | .ok bytes => pcmToAudioBuffer (some 24000) bytes

/-! ## Protocol data (typed shapes of the wire messages) -/

/-- A normalized citation record (`GroundingCitation` of `types/zaiva`,
as constructed by `extractCitations`). -/
structure GroundingCitation where
  startIndex : ℤ
  endIndex : ℤ
  uri : String
  title : String
  deriving Repr, DecidableEq

/-- One `groundingAttributions` entry's `segment` field. -/
structure Segment where
  startIndex : Option ℤ
  endIndex : Option ℤ
  deriving Repr, DecidableEq

/-- One `groundingAttributions` entry's `web` field. -/
structure WebSource where
  uri : Option String
  title : Option String
  deriving Repr, DecidableEq

/-- One grounding attribution entry. -/
structure Attribution where
  segment : Option Segment
  web : Option WebSource
  deriving Repr, DecidableEq

/-- Grounding metadata attached to a server turn. -/
structure GroundingMetadata where
  groundingAttributions : Option (List Attribution)
  deriving Repr, DecidableEq

/-- JS `x || dflt` on an optional string: falls back when the value is absent
or is the empty string (empty strings are falsy in JS). -/
def jsOrStr (v : Option String) (dflt : String) : String :=
  match v with
  | some s => if s = "" then dflt else s
  | none => dflt

/-- JS `x || dflt` on an optional number: falls back when the value is absent
or is 0 (0 is falsy in JS). -/
def jsOrInt (v : Option ℤ) (dflt : ℤ) : ℤ :=
  match v with
  | some n => if n = 0 then dflt else n
  | none => dflt

/-- Model of `extractCitations` (lines 135-152): iterate the attribution
entries with `forEach`, pushing one citation for each entry that has both a
`segment` and a `web` field, with `|| 0` / `|| ''` / `|| 'Web Source'`
defaults. -/
def extractCitations (groundingMetadata : GroundingMetadata) : List GroundingCitation :=
  match groundingMetadata.groundingAttributions with
  | none => []
  | some attrs =>
      attrs.foldl
        (fun citations attr =>
          match attr.segment, attr.web with
          | some seg, some w =>
              citations ++ [{ startIndex := jsOrInt seg.startIndex 0
                              endIndex := jsOrInt seg.endIndex 0
                              uri := jsOrStr w.uri ""
                              title := jsOrStr w.title "Web Source" }]
          | _, _ => citations)
        []

/-- An `inlineData` part payload. -/
structure InlineData where
  mimeType : String
  data : List Char
  deriving Repr, DecidableEq

/-- One part of a `modelTurn`. -/
structure Part where
  text : Option String
  inlineData : Option InlineData
  deriving Repr, DecidableEq

/-- The `modelTurn` field of a `serverContent` message. -/
structure ModelTurn where
  parts : Option (List Part)
  deriving Repr, DecidableEq

/-- A typed `serverContent` message. -/
structure SContent where
  modelTurn : Option ModelTurn
  groundingMetadata : Option GroundingMetadata
  turnComplete : Bool
  deriving Repr, DecidableEq

/-! ## Session state -/

/-- Readiness of the WebSocket transport. -/
inductive WSReady where
  | connecting | open | closing | closed
  deriving Repr, DecidableEq

/-- Outbound protocol messages, as recorded on the sent-traffic log. -/
inductive OutMsg where
  | setup
  | clientContent (text : String)
  | realtimeInput (data : List Char)
  deriving Repr, DecidableEq

/-- An `AudioBufferSourceNode`: what it is playing and whether its `ended`
event has already fired (a source fires `ended` at most once, whether it
finishes naturally or is stopped by `stop()`). -/
structure AudioSource where
  ended : Bool
  buffer : List ℚ
  deriving Repr, DecidableEq

/-- The fields of `GeminiLiveService` (the unused `messageQueue` field is
omitted: it is declared on line 21 and never read or written), plus ghost
instrumentation recording every observable effect: transport sends, callback
invocations, and the enqueue order of the playback queue. -/
structure GLState where
  ws : Option WSReady
  isConnected : Bool
  audioContext : Option ℕ
  audioQueue : List (List ℚ)
  isPlaying : Bool
  currentSource : Option AudioSource
  -- ghost instrumentation (observable effects, not class fields):
  sentLog : List OutMsg
  textEvents : List String
  citationEvents : List (List GroundingCitation)
  turnCompleteCount : ℕ
  startCount : ℕ
  completeCount : ℕ
  enqueueLog : List (List ℚ)
  deriving Repr, DecidableEq

/-- Model of `playNextAudio` (lines 196-218): on an empty queue, clear the
playing flag and fire the playback-complete callback; otherwise (if an audio
context exists) pop the head, fire the playback-start callback and begin
playing it as the new current source. -/
def playNextAudio (s : GLState) : GLState :=
  match s.audioQueue with
  | [] => { s with isPlaying := false, completeCount := s.completeCount + 1 }
  | buf :: rest =>
      match s.audioContext with
      | none => s
      | some _ =>
          { s with isPlaying := true
                   startCount := s.startCount + 1
                   audioQueue := rest
                   currentSource := some { ended := false, buffer := buf } }

/-- Model of `handleAudioResponse` (lines 154-179): lazily create the 24 kHz
audio context, `atob`-decode the base64 payload, reinterpret it as int16 PCM
and push the resulting buffer, starting playback if idle.  Any failure is
caught (`catch` on line 176): the fragment is dropped and the state as of the
failure point is kept (the lazily created audio context survives the catch). -/
def handleAudioResponse (s : GLState) (audioData : List Char) : GLState :=
  let s0 := if s.audioContext.isSome then s else { s with audioContext := some 24000 }
  match b64decode audioData with
  | .error _ => s0
  | .ok bytes =>
      match pcmToAudioBuffer s0.audioContext bytes with
      | .error _ => s0
      | .ok buf =>
          let s1 := { s0 with audioQueue := s0.audioQueue ++ [buf]
                              enqueueLog := s0.enqueueLog ++ [buf] }
          if s1.isPlaying then s1 else playNextAudio s1

/-- Model of `handleServerContent` (lines 109-133): process each part of the
model turn in order (text parts fire the text callback when the text is
truthy; `audio/pcm` inline parts go through `handleAudioResponse`), then, still
inside the `modelTurn` branch, extract and emit citations if grounding
metadata is present; finally fire the turn-complete callback if `turnComplete`
is set. -/
def handleServerContent (s : GLState) (content : SContent) : GLState :=
  let s1 :=
    match content.modelTurn with
    | none => s
    | some mt =>
        let s2 :=
          (mt.parts.getD []).foldl
            (fun st part =>
              let stText :=
                match part.text with
                | some t => if t = "" then st else { st with textEvents := st.textEvents ++ [t] }
                | none => st
              match part.inlineData with
              | some idata =>
                  if idata.mimeType = "audio/pcm" then handleAudioResponse stText idata.data
                  else stText
              | none => stText)
            s
        match content.groundingMetadata with
        | none => s2
        | some gm => { s2 with citationEvents := s2.citationEvents ++ [extractCitations gm] }
  if content.turnComplete then { s1 with turnCompleteCount := s1.turnCompleteCount + 1 } else s1

/-- Model of `stopAudioPlayback` (lines 311-319): if a current source exists,
`stop()` it and drop the handle; clear the queue and the playing flag; fire
the playback-complete callback.  If the stopped source had not yet fired its
`ended` event (i.e. it was still playing), `stop()` makes that event fire: the
`onended` handler installed on line 213 then runs `playNextAudio` on the now
empty queue — modelled here by applying `playNextAudio` after the synchronous
body, matching event-loop order. -/
def stopAudioPlayback (s : GLState) : GLState :=
  let fireEnded :=
    match s.currentSource with
    | some src => !src.ended
    | none => false
  let s1 := { s with currentSource := none
                     audioQueue := []
                     isPlaying := false
                     completeCount := s.completeCount + 1 }
  if fireEnded then playNextAudio s1 else s1

/-- Model of `disconnect` (lines 321-334): close and drop the transport, close
and drop the audio context, stop playback, clear the connected flag.  (The
`onclose` handler the closing socket later fires would set `isConnected`
to false, which is already done synchronously here.) -/
def disconnect (s : GLState) : GLState :=
  let s1 := { s with ws := none }
  let s2 := { s1 with audioContext := none }
  let s3 := stopAudioPlayback s2
  { s3 with isConnected := false }

/-- Whether the transport exists and is open: the guard
`this.ws && this.ws.readyState === WebSocket.OPEN` of the send methods. -/
def wsOpen (s : GLState) : Bool :=
  match s.ws with
  | some w => w = WSReady.open
  | none => false

/-- Model of `sendTextMessage` (lines 220-238): throw
`Not connected to Gemini Live API` when the transport is absent or not open
(before any other effect), else send one `clientContent` user turn with
`turnComplete: true`. -/
def sendTextMessage (s : GLState) (text : String) : Except String GLState :=
  if wsOpen s then
    .ok { s with sentLog := s.sentLog ++ [OutMsg.clientContent text] }
  else .error "Not connected to Gemini Live API"

/-- An outbound audio chunk after the browser's `decodeAudioData` step: sample
rate, channel count and the first channel's float samples.  (`decodeAudioData`
itself is a browser codec, not code of this repository.) -/
structure InputAudio where
  sampleRate : ℕ
  numberOfChannels : ℕ
  channelData : List ℚ
  deriving Repr, DecidableEq

/-- Modelled from the spec: the resampling branch of `convertAudioToPCM`
(lines 281-294) delegates to `OfflineAudioContext.startRendering`, a browser
DSP engine whose algorithm is not code of this repository; the spec fixes only
that it produces 16 kHz mono output.  No claim depends on the resampled sample
values, so the interface is modelled with the source samples passed through. -/
def resampleTo16kMono (a : InputAudio) : List ℚ := a.channelData

/-- Model of `convertAudioToPCM` (lines 267-309): resample unless the source
is already 16 kHz mono, then run the int16 conversion loop. -/
def convertAudioToPCM (a : InputAudio) : List ℤ :=
  if a.sampleRate = 16000 ∧ a.numberOfChannels = 1 then pcm16 a.channelData
  else pcm16 (resampleTo16kMono a)

/-- Model of `sendAudioMessage` (lines 240-265): throw
`Not connected to Gemini Live API` when the transport is absent or not open
(before any conversion work), else encode the chunk and send it as a
`realtimeInput` media chunk. -/
def sendAudioMessage (s : GLState) (audioBlob : InputAudio) : Except String GLState :=
  if wsOpen s then
    let base64Audio := b64encode ((convertAudioToPCM audioBlob).flatMap i16ToBytesLE)
    .ok { s with sentLog := s.sentLog ++ [OutMsg.realtimeInput base64Audio] }
  else .error "Not connected to Gemini Live API"

/-! ## Inbound dispatch over raw JSON -/

/-- A parsed JSON value. -/
inductive JValue where
  | jnull
  | jbool (b : Bool)
  | jnum (q : ℚ)
  | jstr (s : String)
  | jarr (elems : List JValue)
  | jobj (fields : List (String × JValue))

/-- JS truthiness of a JSON value. -/
def truthy : JValue → Bool
  | .jnull => false
  | .jbool b => b
  | .jnum q => q ≠ 0
  | .jstr s => s ≠ ""
  | .jarr _ => true
  | .jobj _ => true

/-- Property access `j.k` on a parsed JSON value. -/
def jLookup (j : JValue) (k : String) : Option JValue :=
  match j with
  | .jobj fields => (fields.find? (fun p => p.1 = k)).map (fun p => p.2)
  | _ => none

/-- Typed reading of one `modelTurn` part from JSON (`part.text`, truthy-only;
`part.inlineData` with its `mimeType` and `data` strings). -/
def partOfJ (p : JValue) : Part :=
  { text :=
      match jLookup p "text" with
      | some (.jstr t) => some t
      | _ => none
    inlineData :=
      match jLookup p "inlineData" with
      | some idata =>
          if truthy idata then
            some { mimeType :=
                     match jLookup idata "mimeType" with
                     | some (.jstr m) => m
                     | _ => ""
                   data :=
                     match jLookup idata "data" with
                     | some (.jstr d) => d.toList
                     | _ => [] }
          else none
      | none => none }

/-- Typed reading of one attribution entry from JSON. -/
def attributionOfJ (a : JValue) : Attribution :=
  { segment :=
      match jLookup a "segment" with
      | some seg =>
          if truthy seg then
            some { startIndex :=
                     match jLookup seg "startIndex" with
                     | some (.jnum q) => some ⌊q⌋
                     | _ => none
                   endIndex :=
                     match jLookup seg "endIndex" with
                     | some (.jnum q) => some ⌊q⌋
                     | _ => none }
          else none
      | none => none
    web :=
      match jLookup a "web" with
      | some w =>
          if truthy w then
            some { uri :=
                     match jLookup w "uri" with
                     | some (.jstr u) => some u
                     | _ => none
                   title :=
                     match jLookup w "title" with
                     | some (.jstr t) => some t
                     | _ => none }
          else none
      | none => none }

/-- Typed reading of a `serverContent` message from JSON. -/
def sContentOfJ (v : JValue) : SContent :=
  { modelTurn :=
      match jLookup v "modelTurn" with
      | some m =>
          if truthy m then
            some { parts :=
                     match jLookup m "parts" with
                     | some (.jarr l) => some (l.map partOfJ)
                     | _ => none }
          else none
      | none => none
    groundingMetadata :=
      match jLookup v "groundingMetadata" with
      | some g =>
          if truthy g then
            some { groundingAttributions :=
                     match jLookup g "groundingAttributions" with
                     | some (.jarr l) => some (l.map attributionOfJ)
                     | _ => none }
          else none
      | none => none
    turnComplete :=
      match jLookup v "turnComplete" with
      | some t => truthy t
      | none => false }

/-- Model of `handleMessage` (lines 93-107): `JSON.parse` the payload (`none`
models a parse failure, which the surrounding `catch` swallows); if the parsed
value has a truthy `serverContent` field, dispatch it; a `setupComplete` field
only logs.  Nothing here throws out of the handler: every error path returns a
state. -/
def handleMessage (s : GLState) (raw : Option JValue) : GLState :=
  match raw with
  | none => s
  | some j =>
      match jLookup j "serverContent" with
      | some v => if truthy v then handleServerContent s (sContentOfJ v) else s
      | none => s

/-! ## Helper lemmas: numeric -/

theorem clampSample_of_mem (v : ℚ) (h1 : -1 ≤ v) (h2 : v ≤ 1) : clampSample v = v := by
  unfold clampSample
  rw [min_eq_right h2, max_eq_right h1]

theorem clampSample_bounds (v : ℚ) : -1 ≤ clampSample v ∧ clampSample v ≤ 1 := by
  unfold clampSample
  constructor
  · exact le_max_left _ _
  · exact max_le (by norm_num) (min_le_left _ _)

theorem truncToZero_err (q : ℚ) : |(truncToZero q : ℚ) - q| < 1 := by
  unfold truncToZero
  split
  · have h1 : (⌊q⌋ : ℚ) ≤ q := Int.floor_le q
    have h2 : q < ⌊q⌋ + 1 := Int.lt_floor_add_one q
    rw [abs_lt]
    constructor <;> linarith
  · have h1 : q ≤ (⌈q⌉ : ℚ) := Int.le_ceil q
    have h2 : (⌈q⌉ : ℚ) < q + 1 := Int.ceil_lt_add_one q
    rw [abs_lt]
    constructor <;> linarith

theorem truncToZero_range (q : ℚ) (h1 : -32767 ≤ q) (h2 : q ≤ 32767) :
    -32767 ≤ truncToZero q ∧ truncToZero q ≤ 32767 := by
  unfold truncToZero
  split
  · rename_i h0
    constructor
    · have : (0 : ℤ) ≤ ⌊q⌋ := Int.floor_nonneg.mpr h0
      omega
    · have : (⌊q⌋ : ℚ) ≤ 32767 := le_trans (Int.floor_le q) h2
      exact_mod_cast this
  · rename_i h0
    constructor
    · have : (-32767 : ℚ) ≤ (⌈q⌉ : ℚ) := le_trans h1 (Int.le_ceil q)
      exact_mod_cast this
    · exact Int.ceil_le.mpr (by exact_mod_cast h2)

theorem toInt16_id (n : ℤ) (h1 : -32768 ≤ n) (h2 : n < 32768) : toInt16 n = n := by
  simp only [toInt16]
  split <;> omega

theorem encodeSample_range (v : ℚ) : -32767 ≤ encodeSample v ∧ encodeSample v ≤ 32767 := by
  obtain ⟨hc1, hc2⟩ := clampSample_bounds v
  have hq1 : -32767 ≤ clampSample v * 32767 := by nlinarith
  have hq2 : clampSample v * 32767 ≤ 32767 := by nlinarith
  obtain ⟨ht1, ht2⟩ := truncToZero_range _ hq1 hq2
  unfold encodeSample
  rw [toInt16_id _ (by omega) (by omega)]
  exact ⟨ht1, ht2⟩

theorem sample_roundtrip_bound (v : ℚ) (h1 : -1 ≤ v) (h2 : v ≤ 1) :
    |((encodeSample v : ℤ) : ℚ) / 32768 - v| < 2 / 32768 := by
  have hclamp : clampSample v = v := clampSample_of_mem v h1 h2
  have hq1 : -32767 ≤ v * 32767 := by nlinarith
  have hq2 : v * 32767 ≤ 32767 := by nlinarith
  obtain ⟨ht1, ht2⟩ := truncToZero_range _ hq1 hq2
  have henc : encodeSample v = truncToZero (v * 32767) := by
    unfold encodeSample
    rw [hclamp]
    rw [toInt16_id _ (by omega) (by omega)]
  set n : ℤ := truncToZero (v * 32767) with hn
  have herr : |(n : ℚ) - v * 32767| < 1 := truncToZero_err _
  have hv : |v| ≤ 1 := abs_le.mpr ⟨h1, h2⟩
  have key : |(n : ℚ) - 32768 * v| < 2 := by
    have heq : (n : ℚ) - 32768 * v = ((n : ℚ) - v * 32767) + (-v) := by ring
    calc |(n : ℚ) - 32768 * v| = |((n : ℚ) - v * 32767) + (-v)| := by rw [heq]
      _ ≤ |(n : ℚ) - v * 32767| + |(-v)| := abs_add _ _
      _ < 2 := by rw [abs_neg]; linarith
  have heq2 : ((encodeSample v : ℤ) : ℚ) / 32768 - v = ((n : ℚ) - 32768 * v) / 32768 := by
    rw [henc]; ring
  rw [heq2, abs_div, abs_of_pos (by norm_num : (0:ℚ) < 32768)]
  linarith [key]

/-! ## Helper lemmas: base64 and byte layout -/

theorem decB64_encB64 : ∀ n < 64, decB64 (encB64 n) = some n := by decide

theorem encB64_ne_pad : ∀ n < 64, encB64 n ≠ '=' := by decide

theorem b64_roundtrip (bs : List ℕ) (h : ∀ b ∈ bs, b < 256) :
    b64decode (b64encode bs) = .ok bs := by
  induction bs using b64encode.induct with
  | case1 => rfl
  | case2 b0 =>
      have h0 : b0 < 256 := h b0 (by simp)
      have e0 := decB64_encB64 (b0 / 4) (by omega)
      have e1 := decB64_encB64 (b0 % 4 * 16) (by omega)
      simp only [b64encode, b64decode, e0, e1]
      norm_num
      omega
  | case3 b0 b1 =>
      have h0 : b0 < 256 := h b0 (by simp)
      have h1 : b1 < 256 := h b1 (by simp)
      have e0 := decB64_encB64 (b0 / 4) (by omega)
      have e1 := decB64_encB64 (b0 % 4 * 16 + b1 / 16) (by omega)
      have e2 := decB64_encB64 (b1 % 16 * 4) (by omega)
      have ne2 := encB64_ne_pad (b1 % 16 * 4) (by omega)
      simp only [b64encode, b64decode, e0, e1, e2, if_neg ne2]
      norm_num
      omega
  | case4 b0 b1 b2 rest ih =>
      have h0 : b0 < 256 := h b0 (by simp)
      have h1 : b1 < 256 := h b1 (by simp)
      have h2 : b2 < 256 := h b2 (by simp)
      have e0 := decB64_encB64 (b0 / 4) (by omega)
      have e1 := decB64_encB64 (b0 % 4 * 16 + b1 / 16) (by omega)
      have e2 := decB64_encB64 (b1 % 16 * 4 + b2 / 64) (by omega)
      have e3 := decB64_encB64 (b2 % 64) (by omega)
      have ne2 := encB64_ne_pad (b1 % 16 * 4 + b2 / 64) (by omega)
      have ne3 := encB64_ne_pad (b2 % 64) (by omega)
      have hrest : ∀ b ∈ rest, b < 256 := fun b hb => h b (by simp [hb])
      rw [b64encode, b64decode]
      simp only [e0, e1, e2, e3, if_neg ne2, if_neg ne3, ih hrest]
      norm_num
      omega

theorem bytesToI16s_flatMap (ns : List ℤ) (h : ∀ n ∈ ns, -32768 ≤ n ∧ n < 32768) :
    bytesToI16s (ns.flatMap i16ToBytesLE) = ns := by
  induction ns with
  | nil => rfl
  | cons n t ih =>
      obtain ⟨h1, h2⟩ := h n (by simp)
      have ht : ∀ m ∈ t, -32768 ≤ m ∧ m < 32768 := fun m hm => h m (by simp [hm])
      rw [List.flatMap_cons]
      show bytesToI16s ((n % 65536).toNat % 256 :: (n % 65536).toNat / 256 ::
        t.flatMap i16ToBytesLE) = n :: t
      rw [bytesToI16s, ih ht]
      have hhead : (let u := (n % 65536).toNat % 256 + 256 * ((n % 65536).toNat / 256)
          if u < 32768 then (u : ℤ) else (u : ℤ) - 65536) = n := by
        simp only []
        split <;> omega
      rw [hhead]

theorem flatMap_i16_len (ns : List ℤ) : (ns.flatMap i16ToBytesLE).length = 2 * ns.length := by
  induction ns with
  | nil => rfl
  | cons n t ih =>
      rw [List.flatMap_cons, List.length_append, ih]
      simp [i16ToBytesLE]
      omega

theorem pcm16_range (x : List ℚ) : ∀ n ∈ pcm16 x, -32768 ≤ n ∧ n < 32768 := by
  intro n hn
  obtain ⟨v, _, rfl⟩ := List.mem_map.mp hn
  have := encodeSample_range v
  omega

/-- The inbound decoder is the exact inverse transport of the outbound
encoder: decoding an encoded frame yields each int16 sample divided
by 32768. -/
theorem decode_encode (x : List ℚ) :
    decodeInbound (encodeOutbound x) = .ok ((pcm16 x).map (fun n : ℤ => (n : ℚ) / 32768)) := by
  have hbytes : ∀ b ∈ (pcm16 x).flatMap i16ToBytesLE, b < 256 := by
    intro b hb
    rw [List.mem_flatMap] at hb
    obtain ⟨n, _, hbn⟩ := hb
    simp [i16ToBytesLE] at hbn
    rcases hbn with h | h <;> omega
  have hlen : ((pcm16 x).flatMap i16ToBytesLE).length % 2 = 0 := by
    rw [flatMap_i16_len]; omega
  unfold decodeInbound encodeOutbound
  rw [b64_roundtrip _ hbytes]
  simp only [pcmToAudioBuffer, if_pos hlen, bytesToI16s_flatMap _ (pcm16_range x)]

/-- Evaluation helper: the encoded sample of a nonnegative in-range float. -/
theorem encodeSample_eval (v : ℚ) (n : ℤ) (hv0 : 0 ≤ v) (hv1 : v ≤ 1)
    (hlo : (n : ℚ) ≤ v * 32767) (hhi : v * 32767 < (n : ℚ) + 1)
    (hn0 : 0 ≤ n) (hn1 : n < 32768) :
    encodeSample v = n := by
  unfold encodeSample
  rw [clampSample_of_mem _ (by linarith) hv1]
  unfold truncToZero
  rw [if_pos (by nlinarith : (0:ℚ) ≤ v * 32767)]
  have hfl : ⌊v * 32767⌋ = n := Int.floor_eq_iff.mpr ⟨hlo, hhi⟩
  rw [hfl]
  exact toInt16_id _ (by omega) (by omega)

/-! ## Claims -/

/-- C1 counterexample: at the in-range 16 kHz mono input `[9/10]`, the
decoded round-trip value is `29490/32768` and its distance to `9/10` is
`3/81920 = 1.2/32768`, strictly greater than one int16 quantization step
`1/32768` — so the claimed bound `≤ 1/32768` is false. -/
theorem claim1_counterexample :
    decodeInbound (encodeOutbound [(9:ℚ)/10]) = .ok [((29490:ℤ):ℚ)/32768] ∧
    ¬ |((29490:ℤ):ℚ)/32768 - 9/10| ≤ 1/32768 := by
  have henc : encodeSample ((9:ℚ)/10) = 29490 := by
    apply encodeSample_eval <;> norm_num
  constructor
  · rw [decode_encode]
    simp [pcm16, henc]
  · rw [not_le]
    have habs : |((29490:ℤ):ℚ)/32768 - 9/10| = 3/81920 := by
      rw [abs_of_neg (by push_cast; norm_num)]
      push_cast
      norm_num
    rw [habs]
    norm_num

/-- C1 (amended): for every float sample array with all values in [-1,1]
(16 kHz mono, so no resampling or channel mixing), decoding the encoded frame
reproduces every sample to within TWO int16 quantization steps:
`|decodeInbound(encodeOutbound(x))[i] - x[i]| < 2/32768`.  (The conversion
truncates `v * 32767` toward zero and decode divides by 32768, so the error
reaches beyond one step; it stays below two.) -/
theorem claim1_amended (x : List ℚ) (hx : ∀ v ∈ x, -1 ≤ v ∧ v ≤ 1) :
    ∃ y, decodeInbound (encodeOutbound x) = .ok y ∧ y.length = x.length ∧
      ∀ (i : ℕ) (hy : i < y.length) (hxi : i < x.length),
        |y[i] - x[i]| < 2 / 32768 := by
  refine ⟨_, decode_encode x, by simp [pcm16], ?_⟩
  intro i hy hxi
  simp only [pcm16, List.getElem_map]
  obtain ⟨h1, h2⟩ := hx x[i] (x.getElem_mem hxi)
  exact sample_roundtrip_bound _ h1 h2

/-- C1 witness: the amended round-trip bound holds at the concrete in-range
input `[1/2]`. -/
theorem claim1_witness :
    (∀ v ∈ [(1:ℚ)/2], -1 ≤ v ∧ v ≤ 1) ∧
    (∃ y, decodeInbound (encodeOutbound [(1:ℚ)/2]) = .ok y ∧
      y.length = [(1:ℚ)/2].length ∧
      ∀ (i : ℕ) (hy : i < y.length) (hxi : i < [(1:ℚ)/2].length),
        |y[i] - [(1:ℚ)/2][i]| < 2 / 32768) := by
  have hmem : ∀ v ∈ [(1:ℚ)/2], -1 ≤ v ∧ v ≤ 1 := by
    intro v hv
    rw [List.mem_singleton] at hv
    subst hv
    norm_num
  exact ⟨hmem, claim1_amended [(1:ℚ)/2] hmem⟩

/-- C7 counterexample: at the sample `v = 7/10`, the outbound int16 value is
22936 and `|22936/32767 - 7/10| = 9/327670`, strictly greater than half an
int16 step `1/65534 = 5/327670` — so the claimed half-step bound is false. -/
theorem claim7_counterexample :
    encodeSample ((7:ℚ)/10) = 22936 ∧
    ¬ |((22936:ℤ):ℚ)/32767 - clampSample ((7:ℚ)/10)| ≤ 1/65534 := by
  constructor
  · apply encodeSample_eval <;> norm_num
  · rw [clampSample_of_mem _ (by norm_num) (by norm_num), not_le]
    have habs : |((22936:ℤ):ℚ)/32767 - 7/10| = 9/327670 := by
      rw [abs_of_neg (by push_cast; norm_num)]
      push_cast
      norm_num
    rw [habs]
    norm_num

/-- C7 (amended): the outbound int16 conversion truncates (it does not
round), so its quantization error is bounded by one full int16 step, not
half a step: `|int16(v)/32767 - clamp(v)| < 1/32767` for every sample. -/
theorem claim7_amended (v : ℚ) :
    |((encodeSample v : ℤ) : ℚ) / 32767 - clampSample v| < 1 / 32767 := by
  obtain ⟨hc1, hc2⟩ := clampSample_bounds v
  have hq1 : -32767 ≤ clampSample v * 32767 := by nlinarith
  have hq2 : clampSample v * 32767 ≤ 32767 := by nlinarith
  obtain ⟨ht1, ht2⟩ := truncToZero_range _ hq1 hq2
  have henc : encodeSample v = truncToZero (clampSample v * 32767) := by
    unfold encodeSample
    rw [toInt16_id _ (by omega) (by omega)]
  set n : ℤ := truncToZero (clampSample v * 32767) with hn
  have herr : |(n : ℚ) - clampSample v * 32767| < 1 := truncToZero_err _
  have heq : ((encodeSample v : ℤ) : ℚ) / 32767 - clampSample v
      = ((n : ℚ) - clampSample v * 32767) / 32767 := by
    rw [henc]; ring
  rw [heq, abs_div, abs_of_pos (by norm_num : (0:ℚ) < 32767)]
  linarith [herr]

/-- C10: every int16 sample the outbound conversion produces lies in
[-32767, 32767] (the code -32768 is unreachable because samples are clamped
to [-1,1] before scaling by 32767), and consequently every float obtained by
decoding an encoded frame lies in [-32767/32768, 32767/32768]. -/
theorem claim10_range (x : List ℚ) :
    (∀ n ∈ pcm16 x, -32767 ≤ n ∧ n ≤ 32767) ∧
    (∀ y, decodeInbound (encodeOutbound x) = .ok y →
      ∀ q ∈ y, -(32767/32768) ≤ q ∧ q ≤ 32767/32768) := by
  constructor
  · intro n hn
    obtain ⟨v, _, rfl⟩ := List.mem_map.mp hn
    exact encodeSample_range v
  · intro y hy q hq
    rw [decode_encode] at hy
    simp only [Except.ok.injEq] at hy
    subst hy
    obtain ⟨n, hn, rfl⟩ := List.mem_map.mp hq
    obtain ⟨v, _, rfl⟩ := List.mem_map.mp hn
    obtain ⟨h1, h2⟩ := encodeSample_range v
    have hc1 : (-32767 : ℚ) ≤ ((encodeSample v : ℤ) : ℚ) := by exact_mod_cast h1
    have hc2 : ((encodeSample v : ℤ) : ℚ) ≤ 32767 := by exact_mod_cast h2
    constructor <;> [linarith; linarith]

/-- C10 witness: clamping makes the out-of-range input `2` encode to the
maximum code 32767, whose decoded float `32767/32768` satisfies the bounds. -/
theorem claim10_witness :
    -(32767/32768) ≤ ((32767:ℤ):ℚ)/32768 ∧ ((32767:ℤ):ℚ)/32768 ≤ 32767/32768 := by
  have henc : encodeSample (2:ℚ) = 32767 := by
    unfold encodeSample clampSample
    rw [min_eq_left (by norm_num), max_eq_right (by norm_num)]
    unfold truncToZero
    rw [if_pos (by norm_num)]
    have hfl : ⌊(1 * 32767 : ℚ)⌋ = 32767 := by
      rw [Int.floor_eq_iff]
      norm_num
    rw [hfl]
    exact toInt16_id _ (by norm_num) (by norm_num)
  have hdec : decodeInbound (encodeOutbound [(2:ℚ)]) = .ok [((32767:ℤ):ℚ)/32768] := by
    rw [decode_encode]
    simp [pcm16, henc]
  exact (claim10_range [(2:ℚ)]).2 _ hdec (((32767:ℤ):ℚ)/32768) (by simp)

/-- The field values `GeminiLiveService`'s constructor establishes (lines
18-25): no transport, no audio context, empty queue, nothing playing. -/
def initState : GLState where
  ws := none
  isConnected := false
  audioContext := none
  audioQueue := []
  isPlaying := false
  currentSource := none
  sentLog := []
  textEvents := []
  citationEvents := []
  turnCompleteCount := 0
  startCount := 0
  completeCount := 0
  enqueueLog := []

/-- C2 counterexample: from a state with a source mid-playback (active source,
playing flag set, empty pending queue), `stopAudioPlayback` invokes the
playback-complete callback twice, not exactly once: once directly (line 318)
and once more when the stopped source's `ended` event runs `playNextAudio` on
the now-empty queue (lines 213-214, 197-200). -/
theorem claim2_counterexample :
    (stopAudioPlayback { initState with
        ws := some WSReady.open
        isConnected := true
        audioContext := some 24000
        isPlaying := true
        currentSource := some { ended := false, buffer := [0] } }).completeCount = 2 ∧
    (2 : ℕ) ≠ 1 := ⟨rfl, by decide⟩

/-- C2 (amended): for every playback-queue state, `stopAudioPlayback` empties
the pending buffer queue, clears the playing flag and drops the source handle;
the playback-complete callback is invoked exactly once when no source was
still mid-playback (none at all, or one whose `ended` event had already
fired), and exactly twice when a source was mid-playback (once directly, once
via the stopped source's completion event). -/
theorem claim2_amended (s : GLState) :
    (stopAudioPlayback s).audioQueue = [] ∧
    (stopAudioPlayback s).isPlaying = false ∧
    (stopAudioPlayback s).currentSource = none ∧
    (stopAudioPlayback s).completeCount = s.completeCount +
      (match s.currentSource with
       | some src => if src.ended then 1 else 2
       | none => 1) := by
  unfold stopAudioPlayback
  cases hs : s.currentSource with
  | none => simp [playNextAudio, hs]
  | some src =>
      cases hsrc : src.ended <;> simp [playNextAudio, hs, hsrc]

/-- C3: sending text or audio while the transport is absent or not open fails
with the not-connected error and performs no transport send and no other
session state change (the model returns only the error, producing no
successor state and appending nothing to the sent-traffic log). -/
theorem claim3_not_connected (s : GLState) (text : String) (audioBlob : InputAudio)
    (h : s.ws ≠ some WSReady.open) :
    sendTextMessage s text = .error "Not connected to Gemini Live API" ∧
    sendAudioMessage s audioBlob = .error "Not connected to Gemini Live API" := by
  have hw : wsOpen s = false := by
    unfold wsOpen
    cases hws : s.ws with
    | none => rfl
    | some w => cases w <;> simp_all
  unfold sendTextMessage sendAudioMessage
  rw [hw]
  simp

/-- C3 witness: with the transport still connecting, both sends fail with the
not-connected error. -/
theorem claim3_witness :
    ({ initState with ws := some WSReady.connecting } : GLState).ws ≠ some WSReady.open ∧
    sendTextMessage { initState with ws := some WSReady.connecting } "hello"
      = .error "Not connected to Gemini Live API" ∧
    sendAudioMessage { initState with ws := some WSReady.connecting } ⟨44100, 2, [0]⟩
      = .error "Not connected to Gemini Live API" := by
  have h := claim3_not_connected { initState with ws := some WSReady.connecting }
    "hello" ⟨44100, 2, [0]⟩ (by simp [initState])
  exact ⟨by simp [initState], h.1, h.2⟩

/-- C8: `disconnect` is idempotent and safe from every state: called twice in
a row it throws nothing (it is a total function), after the second call the
transport handle, audio context, playback queue, source handle, playing flag
and connected flag are all cleared, and the second call changes none of the
service's fields. -/
theorem claim8_disconnect_idempotent (s : GLState) :
    (disconnect (disconnect s)).ws = none ∧
    (disconnect (disconnect s)).audioContext = none ∧
    (disconnect (disconnect s)).audioQueue = [] ∧
    (disconnect (disconnect s)).currentSource = none ∧
    (disconnect (disconnect s)).isPlaying = false ∧
    (disconnect (disconnect s)).isConnected = false ∧
    (disconnect (disconnect s)).ws = (disconnect s).ws ∧
    (disconnect (disconnect s)).audioContext = (disconnect s).audioContext ∧
    (disconnect (disconnect s)).audioQueue = (disconnect s).audioQueue ∧
    (disconnect (disconnect s)).currentSource = (disconnect s).currentSource ∧
    (disconnect (disconnect s)).isPlaying = (disconnect s).isPlaying ∧
    (disconnect (disconnect s)).isConnected = (disconnect s).isConnected := by
  unfold disconnect stopAudioPlayback
  cases hs : s.currentSource with
  | none => simp [playNextAudio, hs]
  | some src => cases hsrc : src.ended <;> simp [playNextAudio, hs, hsrc]

/-- The citation an attribution entry contributes, if any: an entry counts
only when it has both a segment and a web source. -/
def citeOfAttr (attr : Attribution) : Option GroundingCitation :=
  match attr.segment, attr.web with
  | some seg, some w =>
      some { startIndex := jsOrInt seg.startIndex 0
             endIndex := jsOrInt seg.endIndex 0
             uri := jsOrStr w.uri ""
             title := jsOrStr w.title "Web Source" }
  | _, _ => none

theorem foldl_pushCitation (attrs : List Attribution) (acc : List GroundingCitation) :
    attrs.foldl
      (fun citations attr =>
        match attr.segment, attr.web with
        | some seg, some w =>
            citations ++ [{ startIndex := jsOrInt seg.startIndex 0
                            endIndex := jsOrInt seg.endIndex 0
                            uri := jsOrStr w.uri ""
                            title := jsOrStr w.title "Web Source" }]
        | _, _ => citations)
      acc = acc ++ attrs.filterMap citeOfAttr := by
  induction attrs generalizing acc with
  | nil => simp
  | cons a t ih =>
      rw [List.foldl_cons, List.filterMap_cons]
      cases ha : a.segment <;> cases hw : a.web <;>
        simp [citeOfAttr, ha, hw, ih]

/-- C5: `extractCitations` returns one citation per attribution entry that has
both a segment and a web source, in input order with no deduplication, with
indices defaulting to 0, uri to the empty string and title to the
placeholder; in particular the two-entry example input yields exactly
`{5,10,"https://x","X"}` and `{0,0,"","Web Source"}`. -/
theorem claim5_extractCitations :
    (∀ gm : GroundingMetadata,
      extractCitations gm = (gm.groundingAttributions.getD []).filterMap citeOfAttr) ∧
    extractCitations
      { groundingAttributions := some
          [{ segment := some { startIndex := some 5, endIndex := some 10 }
             web := some { uri := some "https://x", title := some "X" } },
           { segment := some { startIndex := some 0, endIndex := some 0 }
             web := some { uri := none, title := none } }] } =
      [{ startIndex := 5, endIndex := 10, uri := "https://x", title := "X" },
       { startIndex := 0, endIndex := 0, uri := "", title := "Web Source" }] := by
  constructor
  · intro gm
    cases hg : gm.groundingAttributions with
    | none => simp [extractCitations, hg]
    | some attrs =>
        simp only [extractCitations, hg]
        rw [foldl_pushCitation]
        simp
  · rfl

/-! ## Ghost-preservation lemmas for the message handlers -/

theorem playNextAudio_ghost (s : GLState) :
    (playNextAudio s).enqueueLog = s.enqueueLog ∧
    (playNextAudio s).citationEvents = s.citationEvents ∧
    (playNextAudio s).turnCompleteCount = s.turnCompleteCount ∧
    (playNextAudio s).textEvents = s.textEvents ∧
    (playNextAudio s).ws = s.ws ∧
    (playNextAudio s).isConnected = s.isConnected := by
  unfold playNextAudio
  cases hq : s.audioQueue with
  | nil => simp
  | cons b rest => cases hc : s.audioContext <;> simp

/-- Effect of `handleAudioResponse` on a fragment that decodes successfully:
exactly one buffer is appended to the enqueue order, and citations, turn
completions, text events and connection state are untouched. -/
theorem handleAudioResponse_ok (s : GLState) (d : List Char) (b : List ℚ)
    (h : decodeInbound d = .ok b) :
    (handleAudioResponse s d).enqueueLog = s.enqueueLog ++ [b] ∧
    (handleAudioResponse s d).citationEvents = s.citationEvents ∧
    (handleAudioResponse s d).turnCompleteCount = s.turnCompleteCount ∧
    (handleAudioResponse s d).textEvents = s.textEvents ∧
    (handleAudioResponse s d).ws = s.ws ∧
    (handleAudioResponse s d).isConnected = s.isConnected := by
  unfold handleAudioResponse
  unfold decodeInbound at h
  cases hb : b64decode d with
  | error e => rw [hb] at h; exact absurd h (by simp)
  | ok bytes =>
      rw [hb] at h
      cases hc : s.audioContext with
      | none =>
          have h0 : pcmToAudioBuffer (some 24000) bytes = .ok b := h
          cases hp : s.isPlaying <;>
            simp [hc, h0, hp, playNextAudio_ghost]
      | some k =>
          have h0 : pcmToAudioBuffer (some k) bytes = .ok b := h
          cases hp : s.isPlaying <;>
            simp [hc, h0, hp, playNextAudio_ghost]

/-- A `serverContent` message whose model turn carries exactly two
`audio/pcm` inline-data parts, no grounding metadata, and `turnComplete`. -/
def twoAudioParts (d1 d2 : List Char) : SContent where
  modelTurn := some { parts := some [
    { text := none, inlineData := some { mimeType := "audio/pcm", data := d1 } },
    { text := none, inlineData := some { mimeType := "audio/pcm", data := d2 } }] }
  groundingMetadata := none
  turnComplete := true

/-- C4: handling a `ServerContent` message with exactly two decodable
`audio/pcm` inline-data parts, `turnComplete: true` and no grounding metadata
enqueues exactly the two decoded buffers in part order, fires the
turn-complete callback exactly once, and invokes the citations callback zero
times. -/
theorem claim4_two_audio (s : GLState) (d1 d2 : List Char) (b1 b2 : List ℚ)
    (h1 : decodeInbound d1 = .ok b1) (h2 : decodeInbound d2 = .ok b2) :
    (handleServerContent s (twoAudioParts d1 d2)).enqueueLog = s.enqueueLog ++ [b1, b2] ∧
    (handleServerContent s (twoAudioParts d1 d2)).turnCompleteCount
      = s.turnCompleteCount + 1 ∧
    (handleServerContent s (twoAudioParts d1 d2)).citationEvents = s.citationEvents := by
  obtain ⟨a1, a2, a3, -, -, -⟩ := handleAudioResponse_ok s d1 b1 h1
  obtain ⟨c1, c2, c3, -, -, -⟩ := handleAudioResponse_ok (handleAudioResponse s d1) d2 b2 h2
  unfold handleServerContent twoAudioParts
  simp only [Option.getD_some, List.foldl_cons, List.foldl_nil, if_true]
  simp [c1, a1, c2, a2, c3, a3]

/-- C4 witness: a concrete two-audio-part turn (payloads of one zero sample
and of the samples 0 and -1) enqueues its two buffers in order, completes the
turn once, and yields no citation event. -/
theorem claim4_witness :
    (handleServerContent initState
        (twoAudioParts "AAA=".toList "AAD//w==".toList)).enqueueLog
      = initState.enqueueLog ++ [[((0:ℤ):ℚ)/32768], [((0:ℤ):ℚ)/32768, ((-1:ℤ):ℚ)/32768]] ∧
    (handleServerContent initState
        (twoAudioParts "AAA=".toList "AAD//w==".toList)).turnCompleteCount
      = initState.turnCompleteCount + 1 ∧
    (handleServerContent initState
        (twoAudioParts "AAA=".toList "AAD//w==".toList)).citationEvents
      = initState.citationEvents :=
  claim4_two_audio initState "AAA=".toList "AAD//w==".toList
    [((0:ℤ):ℚ)/32768] [((0:ℤ):ℚ)/32768, ((-1:ℤ):ℚ)/32768] rfl rfl

/-- C6: an inbound payload that is not valid JSON (parse failure), or whose
parsed value contains neither a `serverContent` nor a `setupComplete`
top-level key, leaves the whole session state (connection state, playback
queue, and every callback count) unchanged; the handler is total, so nothing
is thrown out of it. -/
theorem claim6_malformed (s : GLState) (raw : Option JValue)
    (h : raw = none ∨ ∃ j, raw = some j ∧ jLookup j "serverContent" = none ∧
      jLookup j "setupComplete" = none) :
    handleMessage s raw = s := by
  rcases h with rfl | ⟨j, rfl, hsc, -⟩
  · rfl
  · simp [handleMessage, hsc]

/-- C6 witness: the payload `{"unexpected": true}` has neither distinguishing
key and is dropped with the state unchanged. -/
theorem claim6_witness :
    (some (JValue.jobj [("unexpected", JValue.jbool true)]) = none ∨
      ∃ j, some (JValue.jobj [("unexpected", JValue.jbool true)]) = some j ∧
        jLookup j "serverContent" = none ∧ jLookup j "setupComplete" = none) ∧
    handleMessage initState (some (JValue.jobj [("unexpected", JValue.jbool true)]))
      = initState := by
  have h : some (JValue.jobj [("unexpected", JValue.jbool true)]) = none ∨
      ∃ j, some (JValue.jobj [("unexpected", JValue.jbool true)]) = some j ∧
        jLookup j "serverContent" = none ∧ jLookup j "setupComplete" = none :=
    Or.inr ⟨_, rfl, rfl, rfl⟩
  exact ⟨h, claim6_malformed initState _ h⟩

/-- C9: an inbound audio fragment whose base64 payload decodes to an odd
number of bytes fails inside `pcmToAudioBuffer` (`new Int16Array` rejects an
odd-length buffer), the failure is caught inside `handleAudioResponse`, the
fragment is dropped without enqueuing anything, and the playback queue,
playing flag, connection state, transport and callback counts are unchanged —
the session keeps running. -/
theorem claim9_odd_fragment (s : GLState) (d : List Char) (bytes : List ℕ)
    (hdec : b64decode d = .ok bytes) (hodd : bytes.length % 2 = 1) :
    (handleAudioResponse s d).audioQueue = s.audioQueue ∧
    (handleAudioResponse s d).isPlaying = s.isPlaying ∧
    (handleAudioResponse s d).isConnected = s.isConnected ∧
    (handleAudioResponse s d).ws = s.ws ∧
    (handleAudioResponse s d).enqueueLog = s.enqueueLog ∧
    (handleAudioResponse s d).completeCount = s.completeCount := by
  have hne : ¬ (bytes.length % 2 = 0) := by omega
  unfold handleAudioResponse
  cases hc : s.audioContext with
  | none => simp [hc, hdec, pcmToAudioBuffer, hne]
  | some k => simp [hc, hdec, pcmToAudioBuffer, hne]

/-- C9 witness: the payload `"AA=="` decodes to the single byte 0 (odd
length); handling it from the fresh state drops the fragment and changes
nothing observable. -/
theorem claim9_witness :
    (handleAudioResponse initState "AA==".toList).audioQueue = initState.audioQueue ∧
    (handleAudioResponse initState "AA==".toList).isPlaying = initState.isPlaying ∧
    (handleAudioResponse initState "AA==".toList).isConnected = initState.isConnected ∧
    (handleAudioResponse initState "AA==".toList).ws = initState.ws ∧
    (handleAudioResponse initState "AA==".toList).enqueueLog = initState.enqueueLog ∧
    (handleAudioResponse initState "AA==".toList).completeCount
      = initState.completeCount :=
  claim9_odd_fragment initState "AA==".toList [0] rfl (by decide)

end ZaivaGeminiLive
